import Mathlib

/-!
Verification development for the suggested-first-message generator.

The Python sources are shallowly embedded: pure computations become Lean
functions, the thread-pool batch orchestrator becomes a fold over an
arbitrary completion order, the lock-guarded checkpoint writer becomes a
small-step interleaving semantics with an explicit mutex, and Python
exceptions become `Except`/`Option` results.  External collaborators
(the Gemini API, the relational database) are modelled as oracles passed
in as arguments.
-/

namespace SFMGen

/- ------------------------------------------------------------------ -/
/- model.py: reference entities                                        -/
/- ------------------------------------------------------------------ -/

/-- model.py `Country`. -/
structure Country where
  id : Int
  english_name : String
deriving DecidableEq

/-- model.py `Subject`. -/
structure Subject where
  id : Int
  country_id : Int
  long_name : String
deriving DecidableEq

/-- model.py `Grade`. -/
structure Grade where
  id : Int
  country_id : Int
  long_name : String
deriving DecidableEq

/-- model.py `Language`. -/
structure Language where
  id : Int
  english_name : String
deriving DecidableEq

/-- model.py `Combination`. -/
structure Combination where
  country_id : Int
  grade_id : Int
  subject_id : Int
deriving DecidableEq

/- ------------------------------------------------------------------ -/
/- utils.py: cross-join combination generation                         -/
/- ------------------------------------------------------------------ -/

/-- The per-country body of utils.py `create_combinations` (lines 96-107):
filter subjects and grades to the country, then the nested loop
`for grade in country_grades: for subject in country_subjects: append`. -/
def create_combinations_for_country (country : Country)
    (subjects : List Subject) (grades : List Grade) : List Combination :=
  let country_subjects := subjects.filter (fun s => s.country_id == country.id)
  let country_grades := grades.filter (fun g => g.country_id == country.id)
  country_grades.flatMap (fun grade =>
    country_subjects.map (fun subject =>
      { country_id := country.id, grade_id := grade.id, subject_id := subject.id }))

/-- utils.py `create_combinations`: one combination list per country
(the CSV file `combos_{country.id}.csv` holds the list for that country). -/
def create_combinations (countries : List Country)
    (subjects : List Subject) (grades : List Grade) : List (Int × List Combination) :=
  countries.map (fun c => (c.id, create_combinations_for_country c subjects grades))

/- ------------------------------------------------------------------ -/
/- utils.py: name resolution for a combination                         -/
/- ------------------------------------------------------------------ -/

/-- utils.py `get_names_for_combination` (lines 117-127), with the loaded
catalogs passed in (the source reloads them from CSV on each call).
`next((... for x in xs if p x), "Unknown")` is `List.find?` with an
"Unknown" default. -/
def get_names_for_combination (countries : List Country) (subjects : List Subject)
    (grades : List Grade) (country_id grade_id subject_id : Int) :
    String × String × String :=
  let country_name := match countries.find? (fun c => c.id == country_id) with
    | some c => c.english_name
    | none => "Unknown"
  let subject_name := match subjects.find? (fun s => s.id == subject_id) with
    | some s => s.long_name
    | none => "Unknown"
  let grade_name := match grades.find? (fun g => g.id == grade_id) with
    | some g => g.long_name
    | none => "Unknown"
  (country_name, grade_name, subject_name)

/- ------------------------------------------------------------------ -/
/- gemini.py: generation client                                        -/
/- ------------------------------------------------------------------ -/

/-- A parsed JSON value, the result of Python `json.loads` on the model
response text.  Objects model Python dicts, whose keys are unique. -/
inductive JVal where
  | jnum : Int → JVal
  | jstr : String → JVal
  | jarr : List JVal → JVal
  | jobj : List (String × JVal) → JVal

/-- Python dict lookup `d[key]` on a parsed JSON object (keys unique). -/
def jlookup (fields : List (String × JVal)) (key : String) : Option JVal :=
  (fields.find? (fun p => p.1 == key)).map Prod.snd

/-- Length of a JSON array, 0 on anything else. -/
def jarrLen : JVal → Nat
  | JVal.jarr xs => xs.length
  | _ => 0

/-- gemini.py `generate_topics` (lines 33-52).  The network call is
external; its parsed response is the `response_text` argument, `none`
standing for text that `json.loads` rejects (raises JSONDecodeError).
The function returns `response_dict["topics"]` as is: a missing key
raises KeyError, a non-dict response raises TypeError, and nothing
truncates the returned value to `num_topics`. -/
def generate_topics (subject grade country : String) (num_topics : Nat)
    (response_text : Option JVal) : Except String JVal :=
  match response_text with
  | none => Except.error "json.JSONDecodeError"
  | some (JVal.jobj fields) =>
      match jlookup fields "topics" with
      | some v => Except.ok v
      | none => Except.error "KeyError: topics"
  | some _ => Except.error "TypeError: response is not an object"

/-- gemini.py `generate_suggested_prompts` (lines 70-85), same shape as
`generate_topics` but reading the `suggested_prompts` key. -/
def generate_suggested_prompts (topic country grade language : String)
    (num_prompts : Nat) (response_text : Option JVal) : Except String JVal :=
  match response_text with
  | none => Except.error "json.JSONDecodeError"
  | some (JVal.jobj fields) =>
      match jlookup fields "suggested_prompts" with
      | some v => Except.ok v
      | none => Except.error "KeyError: suggested_prompts"
  | some _ => Except.error "TypeError: response is not an object"

/- ------------------------------------------------------------------ -/
/- gemini.py: batch orchestrator                                       -/
/- ------------------------------------------------------------------ -/

/-- Input record for `generate_topics_batch` (dict with keys
subject/grade/country). -/
structure TopicInput where
  subject : String
  grade : String
  country : String
deriving DecidableEq

/-- Input record for `generate_suggested_prompts_batch` (dict with keys
topic/country/grade/language). -/
structure PromptInput where
  topic : String
  country : String
  grade : String
  language : String
deriving DecidableEq

/-- State threaded through the `as_completed` loop: the pre-sized
result array (`[None] * len(inputs)`) and the sequence of callback
invocations made so far. -/
structure BatchState where
  results : List (Option (List String))
  events : List (Nat × List String)
deriving DecidableEq

/-- Body of the `as_completed` loop for one completed future
(gemini.py lines 124-141 and 183-200).  `f` models the per-item
generation call; `none` stands for a raised exception — the classified
`except` arm and the catch-all arm behave identically, so one case
suffices.  On success the slot gets the result and the callback fires
with it; on failure the slot gets `[]` and the callback fires with
`[]`. -/
def processCompletion {α : Type} (f : α → Option (List String)) (inputs : List α)
    (st : BatchState) (index : Nat) : BatchState :=
  match inputs[index]? with
  | none => st
  | some x =>
      match f x with
      | some result =>
          { results := st.results.set index (some result),
            events := st.events ++ [(index, result)] }
      | none =>
          { results := st.results.set index (some []),
            events := st.events ++ [(index, [])] }

/-- The thread-pool batch loop: all futures are submitted up front;
`order` is the completion order in which `as_completed` yields them —
any permutation of the indices, chosen by external latency. -/
def runBatch {α : Type} (f : α → Option (List String)) (inputs : List α)
    (order : List Nat) : BatchState :=
  order.foldl (processCompletion f inputs) ⟨List.replicate inputs.length none, []⟩

/-- gemini.py `generate_topics_batch` (lines 88-143).  `gen` models
`generate_topics` (its outcome depends on the external service);
`process_single_input` closes over `num_topics`. -/
def generate_topics_batch (inputs : List TopicInput) (batch_size num_topics : Nat)
    (gen : TopicInput → Nat → Option (List String)) (order : List Nat) : BatchState :=
  runBatch (fun input_data => gen input_data num_topics) inputs order

/-- gemini.py `generate_suggested_prompts_batch` (lines 146-202), the
same orchestration around `generate_suggested_prompts`. -/
def generate_suggested_prompts_batch (inputs : List PromptInput)
    (batch_size num_prompts : Nat)
    (gen : PromptInput → Nat → Option (List String)) (order : List Nat) : BatchState :=
  runBatch (fun input_data => gen input_data num_prompts) inputs order

/-- The value a completed slot resolves to: the generation result, or
the empty-list failure sentinel. -/
def resolveItem {α : Type} (f : α → Option (List String)) (x : α) : List String :=
  (f x).getD []

/-- `resolveItem` read through an index into the input list. -/
def resolveAt {α : Type} (f : α → Option (List String)) (inputs : List α)
    (i : Nat) : List String :=
  match inputs[i]? with
  | some x => resolveItem f x
  | none => []

/- Core lemmas about the batch loop. -/

theorem processCompletion_results_length {α : Type} (f : α → Option (List String))
    (inputs : List α) (st : BatchState) (i : Nat) :
    (processCompletion f inputs st i).results.length = st.results.length := by
  unfold processCompletion
  cases inputs[i]? with
  | none => rfl
  | some x => cases hfx : f x <;> simp [hfx, List.length_set]

theorem runBatch_foldl_results_length {α : Type} (f : α → Option (List String))
    (inputs : List α) (order : List Nat) (st : BatchState) :
    (order.foldl (processCompletion f inputs) st).results.length = st.results.length := by
  induction order generalizing st with
  | nil => rfl
  | cons j rest ih => rw [List.foldl_cons, ih, processCompletion_results_length]

theorem processCompletion_events {α : Type} (f : α → Option (List String))
    (inputs : List α) (st : BatchState) (i : Nat) (h : i < inputs.length) :
    (processCompletion f inputs st i).events = st.events ++ [(i, resolveAt f inputs i)] := by
  obtain ⟨x, hx⟩ : ∃ x, inputs[i]? = some x := by
    simp [List.getElem?_eq_getElem h]
  unfold processCompletion resolveAt
  rw [hx]
  cases hfx : f x <;> simp [hfx, resolveItem]

theorem runBatch_foldl_events {α : Type} (f : α → Option (List String))
    (inputs : List α) (order : List Nat) (st : BatchState)
    (h : ∀ j ∈ order, j < inputs.length) :
    (order.foldl (processCompletion f inputs) st).events =
      st.events ++ order.map (fun j => (j, resolveAt f inputs j)) := by
  induction order generalizing st with
  | nil => simp
  | cons j rest ih =>
      rw [List.foldl_cons, ih _ (fun k hk => h k (List.mem_cons_of_mem _ hk)),
        processCompletion_events f inputs st j (h j (List.mem_cons_self _ _))]
      simp

theorem runBatch_foldl_slot_untouched {α : Type} (f : α → Option (List String))
    (inputs : List α) (order : List Nat) (st : BatchState) (i : Nat)
    (h : i ∉ order) :
    (order.foldl (processCompletion f inputs) st).results[i]? = st.results[i]? := by
  induction order generalizing st with
  | nil => rfl
  | cons j rest ih =>
      rw [List.foldl_cons, ih _ (fun hi => h (List.mem_cons_of_mem _ hi))]
      have hji : j ≠ i := fun hj => h (hj ▸ List.mem_cons_self _ _)
      unfold processCompletion
      cases inputs[j]? with
      | none => rfl
      | some x => cases hfx : f x <;> simp [hfx, List.getElem?_set_ne hji]

theorem runBatch_foldl_slot_resolved {α : Type} (f : α → Option (List String))
    (inputs : List α) (order : List Nat) (st : BatchState) (i : Nat)
    (hmem : i ∈ order) (hnd : order.Nodup) (hi : i < inputs.length)
    (hlen : st.results.length = inputs.length) :
    (order.foldl (processCompletion f inputs) st).results[i]? =
      some (some (resolveAt f inputs i)) := by
  induction order generalizing st with
  | nil => cases hmem
  | cons j rest ih =>
      rw [List.foldl_cons]
      rcases List.mem_cons.mp hmem with hij | hirest
      · subst hij
        have hnotin : i ∉ rest := (List.nodup_cons.mp hnd).1
        rw [runBatch_foldl_slot_untouched f inputs rest _ i hnotin]
        obtain ⟨x, hx⟩ : ∃ x, inputs[i]? = some x := by
          simp [List.getElem?_eq_getElem hi]
        unfold processCompletion resolveAt
        rw [hx]
        have hilen : i < st.results.length := hlen ▸ hi
        cases hfx : f x <;> simp [hfx, resolveItem, List.getElem?_set_self hilen]
      · exact ih _ hirest (List.nodup_cons.mp hnd).2
          (by rw [processCompletion_results_length]; exact hlen)

theorem filter_beq_of_nodup (l : List Nat) (i : Nat) (hnd : l.Nodup) (hm : i ∈ l) :
    l.filter (fun j => j == i) = [i] := by
  induction l with
  | nil => cases hm
  | cons a t ih =>
      rcases List.mem_cons.mp hm with rfl | hmt
      · have hnotin : i ∉ t := (List.nodup_cons.mp hnd).1
        have ht : t.filter (fun j => j == i) = [] := by
          rw [List.filter_eq_nil_iff]
          intro j hj
          simp only [beq_iff_eq]
          exact fun hji => hnotin (hji ▸ hj)
        simp [List.filter_cons, ht]
      · have hai : (a == i) = false := by
          simp only [beq_eq_false_iff_ne]
          rintro rfl
          exact (List.nodup_cons.mp hnd).1 hmt
        rw [List.filter_cons]
        simp only [hai, cond_false]
        exact ih (List.nodup_cons.mp hnd).2 hmt

theorem filter_fst_of_map (g : Nat → List String) (l : List Nat) (i : Nat) :
    (l.map (fun j => (j, g j))).filter (fun e => e.1 == i) =
      (l.filter (fun j => j == i)).map (fun j => (j, g j)) := by
  induction l with
  | nil => rfl
  | cons a t ih =>
      simp only [List.map_cons, List.filter_cons]
      cases h : (a == i) <;> simp [h, ih]

/-- Full behaviour of the batch loop under an arbitrary completion
order: the result list keeps length N, every slot resolves to its
input's outcome, and the callback fires exactly once per index with
that index's result. -/
theorem runBatch_spec {α : Type} (f : α → Option (List String)) (inputs : List α)
    (order : List Nat) (h : order.Perm (List.range inputs.length)) :
    (runBatch f inputs order).results.length = inputs.length ∧
    ∀ i, i < inputs.length →
      (runBatch f inputs order).results[i]? = some (some (resolveAt f inputs i)) ∧
      (runBatch f inputs order).events.filter (fun e => e.1 == i) =
        [(i, resolveAt f inputs i)] := by
  have hmem : ∀ j, j ∈ order ↔ j < inputs.length := by
    intro j
    rw [h.mem_iff, List.mem_range]
  have hnd : order.Nodup := h.nodup_iff.mpr (List.nodup_range _)
  have hev : (runBatch f inputs order).events =
      order.map (fun j => (j, resolveAt f inputs j)) := by
    unfold runBatch
    rw [runBatch_foldl_events f inputs order _ (fun j hj => (hmem j).mp hj)]
    rfl
  refine ⟨?_, fun i hi => ⟨?_, ?_⟩⟩
  · unfold runBatch
    rw [runBatch_foldl_results_length]
    exact List.length_replicate _ _
  · unfold runBatch
    exact runBatch_foldl_slot_resolved f inputs order _ i ((hmem i).mpr hi) hnd hi
      (List.length_replicate _ _)
  · rw [hev, filter_fst_of_map, filter_beq_of_nodup order i hnd ((hmem i).mpr hi)]
    rfl

/- ------------------------------------------------------------------ -/
/- Theorems: C1, C2                                                    -/
/- ------------------------------------------------------------------ -/

/-- C1: for every input list, concurrency limit and per-item generation
function, the batch orchestrators return a result list of length
exactly N whose i-th entry is the value produced for inputs[i] (or the
empty-list failure sentinel), and the callback is invoked exactly once
per index with that index's result, for every completion order. -/
theorem c1_batch_index_correspondence :
    (∀ (inputs : List TopicInput) (batch_size num_topics : Nat)
        (gen : TopicInput → Nat → Option (List String)) (order : List Nat),
        order.Perm (List.range inputs.length) →
        (generate_topics_batch inputs batch_size num_topics gen order).results.length =
            inputs.length ∧
          ∀ i, i < inputs.length →
            (generate_topics_batch inputs batch_size num_topics gen order).results[i]? =
              some (some (resolveAt (fun x => gen x num_topics) inputs i)) ∧
            (generate_topics_batch inputs batch_size num_topics gen order).events.filter
                (fun e => e.1 == i) =
              [(i, resolveAt (fun x => gen x num_topics) inputs i)]) ∧
    (∀ (inputs : List PromptInput) (batch_size num_prompts : Nat)
        (gen : PromptInput → Nat → Option (List String)) (order : List Nat),
        order.Perm (List.range inputs.length) →
        (generate_suggested_prompts_batch inputs batch_size num_prompts gen
              order).results.length = inputs.length ∧
          ∀ i, i < inputs.length →
            (generate_suggested_prompts_batch inputs batch_size num_prompts gen
                  order).results[i]? =
              some (some (resolveAt (fun x => gen x num_prompts) inputs i)) ∧
            (generate_suggested_prompts_batch inputs batch_size num_prompts gen
                  order).events.filter (fun e => e.1 == i) =
              [(i, resolveAt (fun x => gen x num_prompts) inputs i)]) :=
  ⟨fun inputs _ num_topics gen order h =>
      runBatch_spec (fun x => gen x num_topics) inputs order h,
    fun inputs _ num_prompts gen order h =>
      runBatch_spec (fun x => gen x num_prompts) inputs order h⟩

/-- A concrete generation stub used by the C1 batch witness. -/
def genStubT : TopicInput → Nat → Option (List String) :=
  fun _ _ => some ["Algebra", "Geometry"]

/-- Witness for C1 at one concrete input and completion order. -/
theorem c1_batch_index_correspondence_witness :
    (generate_topics_batch [{ subject := "Math", grade := "G5", country := "Germany" }]
        20 10 genStubT [0]).results.length = 1 :=
  (c1_batch_index_correspondence.1
      [{ subject := "Math", grade := "G5", country := "Germany" }]
      20 10 genStubT [0] (by decide)).1

/-- C2: per-item failures are isolated — a failing index resolves to
the empty list and its callback still fires with the empty list, every
non-failing index resolves to its normal result, and the batch returns
a full-length result list for every completion order; no per-item
fault propagates. -/
theorem c2_batch_failure_isolation :
    (∀ (inputs : List TopicInput) (batch_size num_topics : Nat)
        (gen : TopicInput → Nat → Option (List String)) (order : List Nat),
        order.Perm (List.range inputs.length) →
        (generate_topics_batch inputs batch_size num_topics gen order).results.length =
            inputs.length ∧
          ∀ i, (hi : i < inputs.length) →
            (gen inputs[i] num_topics = none →
              (generate_topics_batch inputs batch_size num_topics gen
                    order).results[i]? = some (some []) ∧
              (generate_topics_batch inputs batch_size num_topics gen
                    order).events.filter (fun e => e.1 == i) = [(i, [])]) ∧
            (∀ r, gen inputs[i] num_topics = some r →
              (generate_topics_batch inputs batch_size num_topics gen
                    order).results[i]? = some (some r) ∧
              (generate_topics_batch inputs batch_size num_topics gen
                    order).events.filter (fun e => e.1 == i) = [(i, r)])) ∧
    (∀ (inputs : List PromptInput) (batch_size num_prompts : Nat)
        (gen : PromptInput → Nat → Option (List String)) (order : List Nat),
        order.Perm (List.range inputs.length) →
        (generate_suggested_prompts_batch inputs batch_size num_prompts gen
              order).results.length = inputs.length ∧
          ∀ i, (hi : i < inputs.length) →
            (gen inputs[i] num_prompts = none →
              (generate_suggested_prompts_batch inputs batch_size num_prompts gen
                    order).results[i]? = some (some []) ∧
              (generate_suggested_prompts_batch inputs batch_size num_prompts gen
                    order).events.filter (fun e => e.1 == i) = [(i, [])]) ∧
            (∀ r, gen inputs[i] num_prompts = some r →
              (generate_suggested_prompts_batch inputs batch_size num_prompts gen
                    order).results[i]? = some (some r) ∧
              (generate_suggested_prompts_batch inputs batch_size num_prompts gen
                    order).events.filter (fun e => e.1 == i) = [(i, r)])) := by
  constructor
  · intro inputs batch_size num_topics gen order h
    obtain ⟨hlen, hslots⟩ := runBatch_spec (fun x => gen x num_topics) inputs order h
    refine ⟨hlen, fun i hi => ?_⟩
    obtain ⟨hslot, hevt⟩ := hslots i hi
    have hx : inputs[i]? = some inputs[i] := List.getElem?_eq_getElem hi
    have hres : resolveAt (fun x => gen x num_topics) inputs i =
        (gen inputs[i] num_topics).getD [] := by
      unfold resolveAt
      rw [hx]
      rfl
    constructor
    · intro hfail
      rw [hres, hfail] at hslot hevt
      exact ⟨hslot, hevt⟩
    · intro r hok
      rw [hres, hok] at hslot hevt
      exact ⟨hslot, hevt⟩
  · intro inputs batch_size num_prompts gen order h
    obtain ⟨hlen, hslots⟩ := runBatch_spec (fun x => gen x num_prompts) inputs order h
    refine ⟨hlen, fun i hi => ?_⟩
    obtain ⟨hslot, hevt⟩ := hslots i hi
    have hx : inputs[i]? = some inputs[i] := List.getElem?_eq_getElem hi
    have hres : resolveAt (fun x => gen x num_prompts) inputs i =
        (gen inputs[i] num_prompts).getD [] := by
      unfold resolveAt
      rw [hx]
      rfl
    constructor
    · intro hfail
      rw [hres, hfail] at hslot hevt
      exact ⟨hslot, hevt⟩
    · intro r hok
      rw [hres, hok] at hslot hevt
      exact ⟨hslot, hevt⟩

/-- A generation stub that fails on every input, for the C2 witness. -/
def genStubFail : TopicInput → Nat → Option (List String) :=
  fun _ _ => none

/-- Witness for C2: with a failing generation call, the single slot
still resolves, to the empty-list sentinel. -/
theorem c2_batch_failure_isolation_witness :
    (generate_topics_batch [{ subject := "Math", grade := "G5", country := "Germany" }]
        20 10 genStubFail [0]).results[0]? = some (some []) :=
  (((c2_batch_failure_isolation.1
        [{ subject := "Math", grade := "G5", country := "Germany" }]
        20 10 genStubFail [0] (by decide)).2 0 (by decide)).1 rfl).1

/-- Summing a constant over a list multiplies it by the length. -/
theorem sum_map_const {α : Type} (l : List α) (n : Nat) :
    (l.map (fun _ => n)).sum = l.length * n := by
  induction l with
  | nil => simp
  | cons a t ih => simp [ih, Nat.succ_mul, Nat.add_comm]

/-- C6: for every country with G grades and S subjects (those whose
country_id matches), the cross-join produces exactly G*S combinations,
each carrying the country's id; and for country id=1 with grades {5,6}
and subjects {10,11} it yields (1,5,10),(1,5,11),(1,6,10),(1,6,11)
in that order. -/
theorem c6_cross_join_combinations :
    (∀ (country : Country) (subjects : List Subject) (grades : List Grade),
        (create_combinations_for_country country subjects grades).length =
          (grades.filter (fun g => g.country_id == country.id)).length *
            (subjects.filter (fun s => s.country_id == country.id)).length ∧
        (create_combinations_for_country country subjects grades).all
          (fun combo => combo.country_id == country.id) = true) ∧
    create_combinations_for_country { id := 1, english_name := "Germany" }
        [{ id := 10, country_id := 1, long_name := "Math" },
         { id := 11, country_id := 1, long_name := "Biology" }]
        [{ id := 5, country_id := 1, long_name := "Grade 5" },
         { id := 6, country_id := 1, long_name := "Grade 6" }] =
      [{ country_id := 1, grade_id := 5, subject_id := 10 },
       { country_id := 1, grade_id := 5, subject_id := 11 },
       { country_id := 1, grade_id := 6, subject_id := 10 },
       { country_id := 1, grade_id := 6, subject_id := 11 }] := by
  refine ⟨fun country subjects grades => ⟨?_, ?_⟩, by decide⟩
  · simp only [create_combinations_for_country]
    rw [List.length_flatMap]
    simp only [Function.comp_def, List.length_map]
    rw [sum_map_const]
  · simp only [create_combinations_for_country, List.all_eq_true]
    intro combo hmem
    simp only [List.mem_flatMap, List.mem_map] at hmem
    obtain ⟨g, _, s, _, rfl⟩ := hmem
    simp

/-- C7 counterexample: a well-formed (schema-conformant) model response
holding 2 topic strings passed to `generate_topics` with count 1 is
returned whole: the result has length 2, not at most 1.  The code never
truncates the parsed list to `num_topics`. -/
theorem c7_counterexample :
    generate_topics "Biology" "Grade 5" "Germany" 1
        (some (JVal.jobj [("topics",
          JVal.jarr [JVal.jstr "Photosynthesis", JVal.jstr "Cell Division"])])) =
      Except.ok (JVal.jarr [JVal.jstr "Photosynthesis", JVal.jstr "Cell Division"]) ∧
    ¬ jarrLen (JVal.jarr [JVal.jstr "Photosynthesis", JVal.jstr "Cell Division"]) ≤ 1 :=
  ⟨rfl, by decide⟩

/-- C7 amended: `generate_topics` (resp. `generate_suggested_prompts`)
returns exactly the value stored under the response's "topics"
(resp. "suggested_prompts") key — its length is not capped at the
requested count — and fails (raises) on unparseable JSON or on a parsed
object missing that key. -/
theorem c7_generation_client_amended :
    (∀ (subject grade country : String) (num_topics : Nat)
        (fields : List (String × JVal)) (v : JVal),
        jlookup fields "topics" = some v →
        generate_topics subject grade country num_topics (some (JVal.jobj fields)) =
          Except.ok v) ∧
    (∀ (subject grade country : String) (num_topics : Nat)
        (fields : List (String × JVal)),
        jlookup fields "topics" = none →
        generate_topics subject grade country num_topics (some (JVal.jobj fields)) =
          Except.error "KeyError: topics") ∧
    (∀ (subject grade country : String) (num_topics : Nat),
        generate_topics subject grade country num_topics none =
          Except.error "json.JSONDecodeError") ∧
    (∀ (topic country grade language : String) (num_prompts : Nat)
        (fields : List (String × JVal)) (v : JVal),
        jlookup fields "suggested_prompts" = some v →
        generate_suggested_prompts topic country grade language num_prompts
            (some (JVal.jobj fields)) = Except.ok v) ∧
    (∀ (topic country grade language : String) (num_prompts : Nat)
        (fields : List (String × JVal)),
        jlookup fields "suggested_prompts" = none →
        generate_suggested_prompts topic country grade language num_prompts
            (some (JVal.jobj fields)) = Except.error "KeyError: suggested_prompts") ∧
    (∀ (topic country grade language : String) (num_prompts : Nat),
        generate_suggested_prompts topic country grade language num_prompts none =
          Except.error "json.JSONDecodeError") := by
  refine ⟨?_, ?_, ?_, ?_, ?_, ?_⟩ <;>
    intros <;> simp_all [generate_topics, generate_suggested_prompts]

/-- Witness for the amended C7 theorem at a concrete response. -/
theorem c7_generation_client_amended_witness :
    generate_topics "Math" "Grade 6" "Germany" 10
        (some (JVal.jobj [("topics", JVal.jarr [JVal.jstr "Algebra"])])) =
      Except.ok (JVal.jarr [JVal.jstr "Algebra"]) :=
  c7_generation_client_amended.1 "Math" "Grade 6" "Germany" 10
    [("topics", JVal.jarr [JVal.jstr "Algebra"])] (JVal.jarr [JVal.jstr "Algebra"]) rfl

/-- C8: `get_names_for_combination` never raises and resolves each
component of the (country_id, grade_id, subject_id) triple to the
matching entity's name when the id is present in the catalog, and to
the sentinel "Unknown" when it is absent. -/
theorem c8_names_resolution :
    ∀ (countries : List Country) (subjects : List Subject) (grades : List Grade)
      (country_id grade_id subject_id : Int),
      (((∀ c ∈ countries, c.id ≠ country_id) →
          (get_names_for_combination countries subjects grades
            country_id grade_id subject_id).1 = "Unknown") ∧
        ((∃ c ∈ countries, c.id = country_id) →
          ∃ c ∈ countries, c.id = country_id ∧
            (get_names_for_combination countries subjects grades
              country_id grade_id subject_id).1 = c.english_name)) ∧
      (((∀ g ∈ grades, g.id ≠ grade_id) →
          (get_names_for_combination countries subjects grades
            country_id grade_id subject_id).2.1 = "Unknown") ∧
        ((∃ g ∈ grades, g.id = grade_id) →
          ∃ g ∈ grades, g.id = grade_id ∧
            (get_names_for_combination countries subjects grades
              country_id grade_id subject_id).2.1 = g.long_name)) ∧
      (((∀ s ∈ subjects, s.id ≠ subject_id) →
          (get_names_for_combination countries subjects grades
            country_id grade_id subject_id).2.2 = "Unknown") ∧
        ((∃ s ∈ subjects, s.id = subject_id) →
          ∃ s ∈ subjects, s.id = subject_id ∧
            (get_names_for_combination countries subjects grades
              country_id grade_id subject_id).2.2 = s.long_name)) := by
  intro countries subjects grades country_id grade_id subject_id
  refine ⟨⟨?_, ?_⟩, ⟨?_, ?_⟩, ⟨?_, ?_⟩⟩
  · intro h
    have hn : countries.find? (fun c => c.id == country_id) = none := by
      rw [List.find?_eq_none]; intro c hc; simpa using h c hc
    simp [get_names_for_combination, hn]
  · rintro ⟨c, hc, hid⟩
    have hs : (countries.find? (fun c => c.id == country_id)).isSome := by
      rw [List.find?_isSome]; exact ⟨c, hc, by simpa using hid⟩
    obtain ⟨c', hc'⟩ := Option.isSome_iff_exists.mp hs
    refine ⟨c', List.mem_of_find?_eq_some hc', by simpa using List.find?_some hc', ?_⟩
    simp [get_names_for_combination, hc']
  · intro h
    have hn : grades.find? (fun g => g.id == grade_id) = none := by
      rw [List.find?_eq_none]; intro g hg; simpa using h g hg
    simp [get_names_for_combination, hn]
  · rintro ⟨g, hg, hid⟩
    have hs : (grades.find? (fun g => g.id == grade_id)).isSome := by
      rw [List.find?_isSome]; exact ⟨g, hg, by simpa using hid⟩
    obtain ⟨g', hg'⟩ := Option.isSome_iff_exists.mp hs
    refine ⟨g', List.mem_of_find?_eq_some hg', by simpa using List.find?_some hg', ?_⟩
    simp [get_names_for_combination, hg']
  · intro h
    have hn : subjects.find? (fun s => s.id == subject_id) = none := by
      rw [List.find?_eq_none]; intro s hsm; simpa using h s hsm
    simp [get_names_for_combination, hn]
  · rintro ⟨s, hsm, hid⟩
    have hs : (subjects.find? (fun s => s.id == subject_id)).isSome := by
      rw [List.find?_isSome]; exact ⟨s, hsm, by simpa using hid⟩
    obtain ⟨s', hs'⟩ := Option.isSome_iff_exists.mp hs
    refine ⟨s', List.mem_of_find?_eq_some hs', by simpa using List.find?_some hs', ?_⟩
    simp [get_names_for_combination, hs']

/-- Witness for C8 at a concrete catalog: id 99 is absent, so the
country component is the sentinel "Unknown". -/
theorem c8_names_resolution_witness :
    (get_names_for_combination [{ id := 1, english_name := "Germany" }] [] []
      99 99 99).1 = "Unknown" :=
  (c8_names_resolution [{ id := 1, english_name := "Germany" }] [] [] 99 99 99).1.1
    (by decide)

/- ------------------------------------------------------------------ -/
/- db.py: relational upload (the version main.py's upload command uses) -/
/- ------------------------------------------------------------------ -/

/-- model.py `SuggestedFirstMessage`, uuid and timestamp in their
canonical string forms. -/
structure SuggestedFirstMessage where
  uuid : String
  created_on : String
  message : String
  language_id : Option Int
  country_id : Option Int
  grade_id : Option Int
  subject_id : Option Int
deriving DecidableEq

instance : Inhabited SuggestedFirstMessage :=
  ⟨{ uuid := "", created_on := "", message := "", language_id := none,
     country_id := none, grade_id := none, subject_id := none }⟩

/-- Python `range(0, stop, step)` for a positive step: the batch start
offsets `0, step, 2*step, ...` below `stop`. -/
def pyRange (stop step : Nat) : List Nat :=
  (List.range ((stop + step - 1) / step)).map (fun k => k * step)

/-- The slice `records[i : i + batch_size]`. -/
def batchAt {α : Type} (records : List α) (batch_size i : Nat) : List α :=
  (records.drop i).take batch_size

/-- Outcome of the external database operations for one batch:
`get_db` can raise (caught at db.py line 53), `executemany` can raise
(caught at line 65), the outer `try` catches anything else (line 72);
otherwise the insert statement succeeds. -/
inductive BatchOutcome where
  | ok : BatchOutcome
  | connError : String → BatchOutcome
  | insertError : String → BatchOutcome
  | otherError : String → BatchOutcome
deriving DecidableEq

def BatchOutcome.isOk : BatchOutcome → Bool
  | BatchOutcome.ok => true
  | _ => false

/-- Effect of `INSERT ... ON CONFLICT (uuid) DO NOTHING` on the
destination table, modelled as its list of uuids: each record whose
uuid is not yet present is inserted, conflicting rows are skipped. -/
def executeInsertBatch (db : List String)
    (batch : List SuggestedFirstMessage) : List String :=
  batch.foldl (fun d r => if r.uuid ∈ d then d else d ++ [r.uuid]) db

/-- One iteration of db.py's upload loop (lines 34-75): on success
`total_imported += len(batch)` — the full slice length, regardless of
how many rows the conflict rule skipped; on any failure one error
string is appended and the batch contributes nothing. -/
def uploadBatchStep (records : List SuggestedFirstMessage) (batch_size : Nat)
    (env : Nat → BatchOutcome) (acc : (Nat × List String) × List String)
    (i : Nat) : (Nat × List String) × List String :=
  let batch := batchAt records batch_size i
  match env i with
  | BatchOutcome.ok =>
      ((acc.1.1 + batch.length, acc.1.2), executeInsertBatch acc.2 batch)
  | BatchOutcome.connError e =>
      ((acc.1.1, acc.1.2 ++ ["Error getting database connection: " ++ e]), acc.2)
  | BatchOutcome.insertError e =>
      ((acc.1.1, acc.1.2 ++
        ["Error inserting " ++ (batch.headD default).uuid ++ ": " ++ e]), acc.2)
  | BatchOutcome.otherError e =>
      ((acc.1.1, acc.1.2 ++
        ["Batch " ++ toString (i / batch_size + 1) ++ " failed: " ++ e]), acc.2)

/-- db.py `upload_suggested_messages_to_db` (lines 12-77): the batched
best-effort upload.  `env` gives each batch's external outcome, `db0`
the uuids already present in the destination table.  Returns
`((total_imported, errors), final table contents)`. -/
def upload_suggested_messages_to_db (records : List SuggestedFirstMessage)
    (batch_size : Nat) (env : Nat → BatchOutcome) (db0 : List String) :
    (Nat × List String) × List String :=
  if records.isEmpty then ((0, []), db0)
  else
    (pyRange records.length batch_size).foldl
      (uploadBatchStep records batch_size env) ((0, []), db0)

/-- db.py `upload_suggested_messages_to_db_from_dicts` (lines 80-99):
dict records are converted 1:1 to `SuggestedFirstMessage` objects and
uploaded; the upload itself is unchanged. -/
def upload_suggested_messages_to_db_from_dicts
    (records : List SuggestedFirstMessage) (batch_size : Nat)
    (env : Nat → BatchOutcome) (db0 : List String) :
    (Nat × List String) × List String :=
  upload_suggested_messages_to_db records batch_size env db0

/-- The error string a failing batch contributes, `none` for a
successful batch (matching the strings in `uploadBatchStep`). -/
def batchErrorMsg (records : List SuggestedFirstMessage) (batch_size i : Nat) :
    BatchOutcome → Option String
  | BatchOutcome.ok => none
  | BatchOutcome.connError e =>
      some ("Error getting database connection: " ++ e)
  | BatchOutcome.insertError e =>
      some ("Error inserting " ++
        ((batchAt records batch_size i).headD default).uuid ++ ": " ++ e)
  | BatchOutcome.otherError e =>
      some ("Batch " ++ toString (i / batch_size + 1) ++ " failed: " ++ e)

theorem uploadBatchStep_foldl_spec (records : List SuggestedFirstMessage)
    (batch_size : Nat) (env : Nat → BatchOutcome) (idxs : List Nat)
    (acc : (Nat × List String) × List String) :
    (idxs.foldl (uploadBatchStep records batch_size env) acc).1.1 =
      acc.1.1 + ((idxs.filter (fun i => (env i).isOk)).map
        (fun i => (batchAt records batch_size i).length)).sum ∧
    (idxs.foldl (uploadBatchStep records batch_size env) acc).1.2 =
      acc.1.2 ++ idxs.filterMap (fun i => batchErrorMsg records batch_size i (env i)) ∧
    (idxs.foldl (uploadBatchStep records batch_size env) acc).1.2.length =
      acc.1.2.length + (idxs.filter (fun i => !(env i).isOk)).length := by
  induction idxs generalizing acc with
  | nil => simp
  | cons j rest ih =>
      simp only [List.foldl_cons, List.filter_cons, List.filterMap_cons]
      obtain ⟨ih1, ih2, ih3⟩ := ih (uploadBatchStep records batch_size env acc j)
      cases henv : env j <;>
        simp_all [uploadBatchStep, batchErrorMsg, BatchOutcome.isOk, Nat.add_assoc,
          Nat.add_comm, Nat.add_left_comm]

/- ------------------------------------------------------------------ -/
/- Theorems: C3, C9                                                    -/
/- ------------------------------------------------------------------ -/

/-- A checkpoint record whose uuid is already in the destination table,
for re-running the upload. -/
def c3_record : SuggestedFirstMessage :=
  { uuid := "00000000-0000-0000-0000-000000000000",
    created_on := "2026-01-01T00:00:00+00:00",
    message := "What is photosynthesis",
    language_id := some 7, country_id := some 1,
    grade_id := some 5, subject_id := some 10 }

/-- C3 (code evaluation at the failing input): re-running the upload
over a single record whose uuid is already in the destination table
inserts 0 new rows (the table is unchanged) and reports 0 errors, yet
`total_imported` comes back as 1, not 0 — db.py counts the whole batch
whenever `executemany` succeeds, including rows the uuid conflict rule
skipped. -/
theorem c3_duplicate_rerun_evaluation :
    upload_suggested_messages_to_db_from_dicts [c3_record] 100
        (fun _ => BatchOutcome.ok) ["00000000-0000-0000-0000-000000000000"] =
      ((1, []), ["00000000-0000-0000-0000-000000000000"]) ∧
    (1 : Nat) ≠ 0 := by
  refine ⟨?_, by decide⟩
  rfl

/-- C9: the upload processes every batch even when earlier batches
fail: each failing batch contributes exactly one error string (in
batch order) and nothing to the success count, each succeeding batch
contributes its slice length, and the call returns the
(success count, error list) pair instead of raising. -/
theorem c9_upload_batch_isolation :
    ∀ (records : List SuggestedFirstMessage) (batch_size : Nat)
      (env : Nat → BatchOutcome) (db0 : List String),
      0 < batch_size →
      (upload_suggested_messages_to_db records batch_size env db0).1.1 =
          (((pyRange records.length batch_size).filter (fun i => (env i).isOk)).map
            (fun i => (batchAt records batch_size i).length)).sum ∧
      (upload_suggested_messages_to_db records batch_size env db0).1.2 =
          (pyRange records.length batch_size).filterMap
            (fun i => batchErrorMsg records batch_size i (env i)) ∧
      (upload_suggested_messages_to_db records batch_size env db0).1.2.length =
          ((pyRange records.length batch_size).filter
            (fun i => !(env i).isOk)).length := by
  intro records batch_size env db0 hbs
  unfold upload_suggested_messages_to_db
  by_cases hemp : records.isEmpty
  · have hlen : records.length = 0 := List.isEmpty_iff_length_eq_zero.mp hemp
    have hrange : pyRange records.length batch_size = [] := by
      unfold pyRange
      rw [hlen]
      have : (0 + batch_size - 1) / batch_size = 0 :=
        Nat.div_eq_of_lt (by omega)
      rw [this]
      rfl
    simp [hemp, hrange]
  · simp only [hemp, if_false]
    have h := uploadBatchStep_foldl_spec records batch_size env
      (pyRange records.length batch_size) ((0, []), db0)
    simpa using h

/-- Witness for C9: one failing batch followed by one succeeding batch
of size 1 — one error, one success, both batches processed. -/
theorem c9_upload_batch_isolation_witness :
    (upload_suggested_messages_to_db [c3_record, c3_record] 1
        (fun i => if i = 0 then BatchOutcome.connError "down" else BatchOutcome.ok)
        []).1.1 =
      (((pyRange 2 1).filter (fun i =>
        ((fun i => if i = 0 then BatchOutcome.connError "down" else BatchOutcome.ok)
          i).isOk)).map (fun i => (batchAt [c3_record, c3_record] 1 i).length)).sum :=
  (c9_upload_batch_isolation [c3_record, c3_record] 1
    (fun i => if i = 0 then BatchOutcome.connError "down" else BatchOutcome.ok)
    [] (by decide)).1

/- ------------------------------------------------------------------ -/
/- utils.py: popular languages (C10)                                   -/
/- ------------------------------------------------------------------ -/

/-- One row of ./data/popular_language.csv; `language_2_id = none`
models an empty (after strip) second-language column. -/
structure PopularLanguageRow where
  country_id : Int
  language_1_id : Int
  language_2_id : Option Int
deriving DecidableEq

/-- Python dict assignment `d[k] = v`: later bindings win. -/
def dictInsert {α : Type} (d : List (Int × α)) (k : Int) (v : α) : List (Int × α) :=
  (d.filter (fun p => p.1 != k)) ++ [(k, v)]

/-- Python dict lookup on the unique-key association list. -/
def dictLookup {α : Type} (d : List (Int × α)) (k : Int) : Option α :=
  (d.find? (fun p => p.1 == k)).map Prod.snd

/-- utils.py `load_popular_languages` (lines 66-85): a dict mapping
country_id to the tuple `(language_1_id, language_2_id)`, or the
one-element tuple `(language_1_id,)` when the second column is
empty. -/
def load_popular_languages (rows : List PopularLanguageRow) : List (Int × List Int) :=
  rows.foldl
    (fun popular_languages row =>
      match row.language_2_id with
      | some language_2_id =>
          dictInsert popular_languages row.country_id
            [row.language_1_id, language_2_id]
      | none =>
          dictInsert popular_languages row.country_id [row.language_1_id])
    []

/-- utils.py `get_languages_for_country` (lines 191-211).  The source
unpacks `language_1_id, language_2_id = popular_languages[country_id]`
— a 2-element destructuring that raises ValueError on any tuple whose
length is not 2. -/
def get_languages_for_country (rows : List PopularLanguageRow)
    (languages : List Language) (country_id : Int) : Except String (List String) :=
  let popular_languages := load_popular_languages rows
  let language_lookup :=
    languages.foldl (fun d lang => dictInsert d lang.id lang.english_name)
      ([] : List (Int × String))
  match dictLookup popular_languages country_id with
  | none => Except.ok []
  | some tup =>
      match tup with
      | [language_1_id, language_2_id] =>
          Except.ok
            ((match dictLookup language_lookup language_1_id with
              | some name => [name]
              | none => []) ++
             (match dictLookup language_lookup language_2_id with
              | some name => [name]
              | none => []))
      | _ => Except.error "ValueError: not enough values to unpack (expected 2, got 1)"

theorem dictLookup_dictInsert_self {α : Type} (d : List (Int × α)) (k : Int) (v : α) :
    dictLookup (dictInsert d k v) k = some v := by
  unfold dictLookup dictInsert
  have h1 : (d.filter (fun p => p.1 != k)).find? (fun p => p.1 == k) = none := by
    rw [List.find?_eq_none]
    intro p hp
    have hne := List.of_mem_filter hp
    simp only [bne_iff_ne, ne_eq] at hne
    simp [hne]
  rw [List.find?_append, h1]
  simp

/- ------------------------------------------------------------------ -/
/- Theorem: C10                                                        -/
/- ------------------------------------------------------------------ -/

/-- C10: when the popular-language table maps a country to a
one-element tuple (second column empty), `get_languages_for_country`
raises from unpacking it into two variables instead of returning the
single language's name; a country absent from the table yields the
empty list.  The third conjunct ties the one-element tuple to an
empty second column. -/
theorem c10_single_language_unpack :
    (∀ (rows : List PopularLanguageRow) (languages : List Language)
        (country_id l1 : Int),
        dictLookup (load_popular_languages rows) country_id = some [l1] →
        get_languages_for_country rows languages country_id =
          Except.error "ValueError: not enough values to unpack (expected 2, got 1)") ∧
    (∀ (rows : List PopularLanguageRow) (languages : List Language)
        (country_id : Int),
        dictLookup (load_popular_languages rows) country_id = none →
        get_languages_for_country rows languages country_id = Except.ok []) ∧
    (∀ (rs : List PopularLanguageRow) (row : PopularLanguageRow),
        row.language_2_id = none →
        dictLookup (load_popular_languages (rs ++ [row])) row.country_id =
          some [row.language_1_id]) := by
  refine ⟨?_, ?_, ?_⟩
  · intro rows languages country_id l1 hl
    unfold get_languages_for_country
    simp [hl]
  · intro rows languages country_id hl
    unfold get_languages_for_country
    simp [hl]
  · intro rs row h2
    unfold load_popular_languages
    rw [List.foldl_append]
    simp only [List.foldl_cons, List.foldl_nil, h2]
    exact dictLookup_dictInsert_self _ _ _

/-- Witness for C10: country 1 has only German (id 7) as popular
language; the call raises ValueError instead of returning ["German"]. -/
theorem c10_single_language_unpack_witness :
    get_languages_for_country
        [{ country_id := 1, language_1_id := 7, language_2_id := none }]
        [{ id := 7, english_name := "German" }] 1 =
      Except.error "ValueError: not enough values to unpack (expected 2, got 1)" :=
  c10_single_language_unpack.1
    [{ country_id := 1, language_1_id := 7, language_2_id := none }]
    [{ id := 7, english_name := "German" }] 1 7 (by decide)

/- ------------------------------------------------------------------ -/
/- main.py: checkpoint writer (C4)                                     -/
/- ------------------------------------------------------------------ -/

/-- A row of the topic checkpoint CSV: the header line or one data
row (a data row, holding rendered ints and a topic, can never equal
the header line). -/
inductive TopicRow where
  | header : TopicRow
  | data : Int → Int → Int → String → TopicRow
deriving DecidableEq

/-- One entry of main.py's `combination_metadata` list. -/
structure ComboMeta where
  country_id : Int
  grade_id : Int
  subject_id : Int
deriving DecidableEq

/-- utils.py `append_csv_data` (lines 159-167) on the topic checkpoint:
`write_header=True` opens mode 'w' (truncate, header, rows);
`write_header=False` opens mode 'a' (pure append). -/
def append_csv_data (file : List TopicRow) (data : List TopicRow)
    (write_header : Bool) : List TopicRow :=
  if write_header then TopicRow.header :: data else file ++ data

/-- The rows `save_topics_callback` builds for one completed result. -/
def topicRowsFor (meta : ComboMeta) (topics : List String) : List TopicRow :=
  topics.map (fun topic =>
    TopicRow.data meta.country_id meta.grade_id meta.subject_id topic)

/-- main.py `save_topics_callback` (lines 118-137) as a transformer of
the checkpoint file.  An empty result returns before taking the lock
(the Bool records whether the lock was acquired); otherwise the built
rows are appended under the lock via `append_csv_data` with its
default `write_header=False`. -/
def save_topics_callback (combination_metadata : List ComboMeta)
    (file : List TopicRow) (index : Nat) (topics : List String) :
    List TopicRow × Bool :=
  if topics.isEmpty then (file, false)
  else
    (append_csv_data file
      (topicRowsFor
        (combination_metadata.getD index
          { country_id := 0, grade_id := 0, subject_id := 0 }) topics) false,
     true)

/-- One generation run's effect on the topic checkpoint: main.py first
writes the header exactly once (lines 110-112), then the completion
callbacks fire, serialized by the file lock, in some order with their
results. -/
def runTopicsCheckpoint (combination_metadata : List ComboMeta)
    (completions : List (Nat × List String)) : List TopicRow :=
  completions.foldl
    (fun file c => (save_topics_callback combination_metadata file c.1 c.2).1)
    [TopicRow.header]

theorem save_topics_callback_fst (combination_metadata : List ComboMeta)
    (file : List TopicRow) (index : Nat) (topics : List String) :
    (save_topics_callback combination_metadata file index topics).1 =
      file ++ topicRowsFor
        (combination_metadata.getD index
          { country_id := 0, grade_id := 0, subject_id := 0 }) topics := by
  unfold save_topics_callback
  cases he : topics.isEmpty
  · simp [append_csv_data]
  · have : topics = [] := List.isEmpty_iff.mp he
    subst this
    simp [topicRowsFor]

theorem runTopicsCheckpoint_foldl (combination_metadata : List ComboMeta)
    (completions : List (Nat × List String)) (file : List TopicRow) :
    completions.foldl
        (fun file c => (save_topics_callback combination_metadata file c.1 c.2).1)
        file =
      file ++ (completions.map (fun c =>
        topicRowsFor (combination_metadata.getD c.1
          { country_id := 0, grade_id := 0, subject_id := 0 }) c.2)).flatten := by
  induction completions generalizing file with
  | nil => simp
  | cons c rest ih =>
      rw [List.foldl_cons, ih, save_topics_callback_fst]
      simp

/- ------------------------------------------------------------------ -/
/- Theorem: C4                                                         -/
/- ------------------------------------------------------------------ -/

/-- C4: after a run, the checkpoint holds exactly one header row,
written once at the start, followed by one data row per string of each
non-empty callback result (in callback order); a callback invoked with
an empty result writes nothing, leaves the file unchanged, and does
not take the lock. -/
theorem c4_checkpoint_header_and_rows :
    ∀ (combination_metadata : List ComboMeta)
      (completions : List (Nat × List String)),
      runTopicsCheckpoint combination_metadata completions =
          TopicRow.header :: (completions.map (fun c =>
            topicRowsFor (combination_metadata.getD c.1
              { country_id := 0, grade_id := 0, subject_id := 0 }) c.2)).flatten ∧
      (runTopicsCheckpoint combination_metadata completions).count TopicRow.header
          = 1 ∧
      (runTopicsCheckpoint combination_metadata completions).length =
          1 + (completions.map (fun c => c.2.length)).sum ∧
      (∀ (file : List TopicRow) (index : Nat),
        save_topics_callback combination_metadata file index [] = (file, false)) := by
  intro combination_metadata completions
  have hrun : runTopicsCheckpoint combination_metadata completions =
      TopicRow.header :: (completions.map (fun c =>
        topicRowsFor (combination_metadata.getD c.1
          { country_id := 0, grade_id := 0, subject_id := 0 }) c.2)).flatten := by
    unfold runTopicsCheckpoint
    rw [runTopicsCheckpoint_foldl]
    rfl
  refine ⟨hrun, ?_, ?_, fun file index => rfl⟩
  · rw [hrun, List.count_cons_self]
    have hz : (completions.map (fun c =>
        topicRowsFor (combination_metadata.getD c.1
          { country_id := 0, grade_id := 0, subject_id := 0 })
          c.2)).flatten.count TopicRow.header = 0 := by
      rw [List.count_eq_zero]
      intro hmem
      obtain ⟨rows, hrows, hhd⟩ := List.mem_flatten.mp hmem
      obtain ⟨c, _, rfl⟩ := List.mem_map.mp hrows
      obtain ⟨topic, _, heq⟩ := List.mem_map.mp hhd
      cases heq
    rw [hz]
  · rw [hrun]
    simp only [List.length_cons, List.length_flatten, List.map_map]
    have : ∀ c : Nat × List String,
        (List.length ∘ fun c : Nat × List String =>
          topicRowsFor (combination_metadata.getD c.1
            { country_id := 0, grade_id := 0, subject_id := 0 }) c.2) c =
          c.2.length := by
      intro c
      simp [topicRowsFor]
    rw [List.map_congr_left (fun c _ => this c)]
    omega

/- ------------------------------------------------------------------ -/
/- main.py: concurrent checkpoint writers under file_lock (C5)         -/
/- ------------------------------------------------------------------ -/

/-- The program position of one completion callback with rows to
append (main.py lines 118-137 / 199-219): before `with file_lock:`,
inside the critical section with `written` rows already in the file
and `remaining` still to write, or done with the lock released. -/
inductive TStat (ρ : Type) where
  | idle : List ρ → TStat ρ
  | working : List ρ → List ρ → TStat ρ
  | finished : List ρ → TStat ρ
deriving DecidableEq

/-- Global state of the concurrent writers: the data rows appended to
the checkpoint file so far, tagged with the writing thread; the thread
currently holding `file_lock`, if any; and every thread's position. -/
structure WriterState (ρ : Type) where
  file : List (Nat × ρ)
  owner : Option Nat
  threads : List (TStat ρ)
deriving DecidableEq

/-- A callback with no rows returns before touching the lock
(`if not topics: return`), so it starts already finished; any other
callback starts just before its `with file_lock:`. -/
def initThread {ρ : Type} (block : List ρ) : TStat ρ :=
  if block.isEmpty then TStat.finished block else TStat.idle block

def initWriter {ρ : Type} (blocks : List (List ρ)) : WriterState ρ :=
  { file := [], owner := none, threads := blocks.map initThread }

/-- One scheduler step giving thread `t` a time slice.  Acquiring the
lock blocks while another thread owns it; a thread inside the critical
section appends its rows one at a time — row granularity is exactly
what mutual exclusion must protect — then releases the lock.  A write
step does not itself consult the lock: exclusion can come only from
the acquire step, as in the source. -/
def wstep {ρ : Type} (s : WriterState ρ) (t : Nat) : WriterState ρ :=
  match s.threads[t]? with
  | some (TStat.idle block) =>
      match s.owner with
      | none =>
          { s with owner := some t,
                   threads := s.threads.set t (TStat.working [] block) }
      | some _ => s
  | some (TStat.working written (r :: rs)) =>
      { s with file := s.file ++ [(t, r)],
               threads := s.threads.set t (TStat.working (written ++ [r]) rs) }
  | some (TStat.working written []) =>
      { s with owner := none,
               threads := s.threads.set t (TStat.finished written) }
  | _ => s

/-- Run the writers under an arbitrary interleaving `sched`. -/
def wrun {ρ : Type} (blocks : List (List ρ)) (sched : List Nat) : WriterState ρ :=
  sched.foldl wstep (initWriter blocks)

def isFinishedT {ρ : Type} : TStat ρ → Bool
  | TStat.finished _ => true
  | _ => false

/-- Every callback has completed. -/
def allDone {ρ : Type} (s : WriterState ρ) : Bool :=
  s.threads.all isFinishedT

/-- The full checkpoint file: the header written once at the start of
the run, then the appended data rows. -/
def checkpointFile {ρ : Type} (header : ρ) (s : WriterState ρ) : List ρ :=
  header :: s.file.map Prod.snd

/-- The whole block a thread is in charge of appending. -/
def blockOf {ρ : Type} : TStat ρ → List ρ
  | TStat.idle b => b
  | TStat.working w r => w ++ r
  | TStat.finished b => b

/-- The rows a thread has already written to the file. -/
def writtenOf {ρ : Type} : TStat ρ → List ρ
  | TStat.idle _ => []
  | TStat.working w _ => w
  | TStat.finished b => b

/-- Thread `t`'s block with each row tagged by `t`. -/
def taggedBlock {ρ : Type} (blocks : List (List ρ)) (t : Nat) : List (Nat × ρ) :=
  (blocks.getD t []).map (fun r => (t, r))

/-- The partial rows of the current lock holder. -/
def ownerPartial {ρ : Type} (s : WriterState ρ) : List (Nat × ρ) :=
  match s.owner with
  | some t =>
      match s.threads[t]? with
      | some st => (writtenOf st).map (fun r => (t, r))
      | none => []
  | none => []

/-- The run invariant: thread positions are consistent with the
original blocks, exactly the lock holder is mid-append, and the file
is the concatenation of the completed threads' whole blocks (in their
completion order) followed by the lock holder's partial rows. -/
def WInv {ρ : Type} (blocks : List (List ρ)) (s : WriterState ρ) : Prop :=
  s.threads.length = blocks.length ∧
  (∀ t st, s.threads[t]? = some st →
    blockOf st = blocks.getD t [] ∧
    (isFinishedT st = false → blocks.getD t [] ≠ [])) ∧
  (∀ t, (∃ w r, s.threads[t]? = some (TStat.working w r)) ↔ s.owner = some t) ∧
  ∃ ord : List Nat, ord.Nodup ∧
    (∀ t, t ∈ ord ↔ ∃ b, s.threads[t]? = some (TStat.finished b) ∧ b ≠ []) ∧
    s.file = (ord.map (taggedBlock blocks)).flatten ++ ownerPartial s

theorem threads_lt {ρ : Type} {s : WriterState ρ} {t : Nat} {st : TStat ρ}
    (h : s.threads[t]? = some st) : t < s.threads.length :=
  (List.getElem?_eq_some.mp h).1

theorem getD_of_getElem? {ρ : Type} {blocks : List (List ρ)} {t : Nat} {b : List ρ}
    (h : blocks[t]? = some b) : blocks.getD t [] = b := by
  simp [List.getD_eq_getElem?_getD, h]

/- Characterizations of `wstep` by the scheduled thread's position. -/

theorem wstep_out {ρ : Type} (s : WriterState ρ) (t : Nat)
    (h : s.threads[t]? = none) : wstep s t = s := by
  unfold wstep
  rw [h]

theorem wstep_finished {ρ : Type} (s : WriterState ρ) (t : Nat) (b : List ρ)
    (h : s.threads[t]? = some (TStat.finished b)) : wstep s t = s := by
  unfold wstep
  rw [h]

theorem wstep_blocked {ρ : Type} (s : WriterState ρ) (t : Nat) (block : List ρ)
    (u : Nat) (h : s.threads[t]? = some (TStat.idle block))
    (ho : s.owner = some u) : wstep s t = s := by
  unfold wstep
  rw [h, ho]

theorem wstep_acquire {ρ : Type} (s : WriterState ρ) (t : Nat) (block : List ρ)
    (h : s.threads[t]? = some (TStat.idle block)) (ho : s.owner = none) :
    wstep s t =
      { s with owner := some t,
               threads := s.threads.set t (TStat.working [] block) } := by
  unfold wstep
  rw [h, ho]

theorem wstep_write {ρ : Type} (s : WriterState ρ) (t : Nat) (w : List ρ)
    (r : ρ) (rs : List ρ)
    (h : s.threads[t]? = some (TStat.working w (r :: rs))) :
    wstep s t =
      { s with file := s.file ++ [(t, r)],
               threads := s.threads.set t (TStat.working (w ++ [r]) rs) } := by
  unfold wstep
  rw [h]

theorem wstep_release {ρ : Type} (s : WriterState ρ) (t : Nat) (w : List ρ)
    (h : s.threads[t]? = some (TStat.working w [])) :
    wstep s t =
      { s with owner := none,
               threads := s.threads.set t (TStat.finished w) } := by
  unfold wstep
  rw [h]

theorem winv_init {ρ : Type} (blocks : List (List ρ)) :
    WInv blocks (initWriter blocks) := by
  have hth : ∀ t : Nat, (initWriter blocks).threads[t]? =
      (blocks[t]?).map initThread := by
    intro t
    simp [initWriter, List.getElem?_map]
  refine ⟨by simp [initWriter], ?_, ?_, [], List.nodup_nil, ?_, ?_⟩
  · intro t st hst
    rw [hth] at hst
    cases hb : blocks[t]? with
    | none => rw [hb] at hst; cases hst
    | some b =>
        rw [hb] at hst
        have hst' : initThread b = st := by simpa using hst
        have hgd : blocks.getD t [] = b := getD_of_getElem? hb
        subst hst'
        unfold initThread
        cases he : b.isEmpty with
        | false =>
            refine ⟨by rw [if_neg (by simp), hgd]; rfl, fun _ => ?_⟩
            rw [hgd]
            intro hnil
            rw [hnil] at he
            cases he
        | true =>
            refine ⟨by rw [if_pos rfl, hgd]; rfl, fun hf => ?_⟩
            simp [isFinishedT] at hf
  · intro t
    constructor
    · rintro ⟨w, r, hw⟩
      rw [hth] at hw
      cases hb : blocks[t]? with
      | none => rw [hb] at hw; cases hw
      | some b =>
          rw [hb] at hw
          have : initThread b = TStat.working w r := by simpa using hw
          unfold initThread at this
          cases he : b.isEmpty <;> rw [he] at this <;> cases this
    · intro hsome
      simp [initWriter] at hsome
  · intro t
    simp only [List.not_mem_nil, false_iff]
    rintro ⟨b, hb, hbne⟩
    rw [hth] at hb
    cases hbt : blocks[t]? with
    | none => rw [hbt] at hb; cases hb
    | some b' =>
        rw [hbt] at hb
        have : initThread b' = TStat.finished b := by simpa using hb
        unfold initThread at this
        cases he : b'.isEmpty with
        | false => rw [he] at this; cases this
        | true =>
            rw [he] at this
            cases this
            exact hbne (List.isEmpty_iff.mp he)
  · simp [initWriter, ownerPartial]

theorem winv_step {ρ : Type} (blocks : List (List ρ)) (s : WriterState ρ) (t : Nat)
    (h : WInv blocks s) : WInv blocks (wstep s t) := by
  obtain ⟨hlen, hcons, hown, ord, hnd, hmem, hfile⟩ := h
  cases hst : s.threads[t]? with
  | none =>
      rw [wstep_out s t hst]
      exact ⟨hlen, hcons, hown, ord, hnd, hmem, hfile⟩
  | some st =>
      cases st with
      | finished b =>
          rw [wstep_finished s t b hst]
          exact ⟨hlen, hcons, hown, ord, hnd, hmem, hfile⟩
      | idle block =>
          cases howner : s.owner with
          | some u =>
              rw [wstep_blocked s t block u hst howner]
              exact ⟨hlen, hcons, hown, ord, hnd, hmem, hfile⟩
          | none =>
              rw [wstep_acquire s t block hst howner]
              have hlt : t < s.threads.length := threads_lt hst
              obtain ⟨hblk, hne⟩ := hcons t _ hst
              have hblk' : block = blocks.getD t [] := hblk
              have hbne : blocks.getD t [] ≠ [] := hne rfl
              unfold WInv
              dsimp only
              refine ⟨by simpa using hlen, ?_, ?_, ord, hnd, ?_, ?_⟩
              · intro t' st' hst'
                by_cases htt : t' = t
                · subst htt
                  rw [List.getElem?_set_self hlt] at hst'
                  cases hst'
                  exact ⟨hblk', fun _ => hbne⟩
                · rw [List.getElem?_set_ne (fun he => htt he.symm)] at hst'
                  exact hcons t' st' hst'
              · intro t'
                by_cases htt : t' = t
                · subst htt
                  constructor
                  · intro _
                    rfl
                  · intro _
                    exact ⟨[], block, by rw [List.getElem?_set_self hlt]⟩
                · constructor
                  · rintro ⟨w, r, hw⟩
                    rw [List.getElem?_set_ne (fun he => htt he.symm)] at hw
                    have hc := (hown t').mp ⟨w, r, hw⟩
                    rw [howner] at hc
                    cases hc
                  · intro hsome
                    injection hsome with hts
                    exact absurd hts.symm htt
              · intro t'
                rw [hmem t']
                by_cases htt : t' = t
                · subst htt
                  constructor
                  · rintro ⟨b, hb, hbne2⟩
                    rw [hst] at hb
                    cases hb
                  · rintro ⟨b, hb, hbne2⟩
                    rw [List.getElem?_set_self hlt] at hb
                    cases hb
                · constructor
                  · rintro ⟨b, hb, hbne2⟩
                    refine ⟨b, ?_, hbne2⟩
                    rw [List.getElem?_set_ne (fun he => htt he.symm)]
                    exact hb
                  · rintro ⟨b, hb, hbne2⟩
                    rw [List.getElem?_set_ne (fun he => htt he.symm)] at hb
                    exact ⟨b, hb, hbne2⟩
              · rw [hfile]
                have hop : ownerPartial s = [] := by
                  simp [ownerPartial, howner]
                rw [hop]
                simp [ownerPartial, List.getElem?_set_self hlt, writtenOf]
      | working w rem =>
          cases rem with
          | cons r rs =>
              rw [wstep_write s t w r rs hst]
              have howner : s.owner = some t := (hown t).mp ⟨w, r :: rs, hst⟩
              have hlt : t < s.threads.length := threads_lt hst
              obtain ⟨hblk, hne⟩ := hcons t _ hst
              have hbne : blocks.getD t [] ≠ [] := hne rfl
              unfold WInv
              dsimp only
              refine ⟨by simpa using hlen, ?_, ?_, ord, hnd, ?_, ?_⟩
              · intro t' st' hst'
                by_cases htt : t' = t
                · subst htt
                  rw [List.getElem?_set_self hlt] at hst'
                  cases hst'
                  refine ⟨?_, fun _ => hbne⟩
                  show (w ++ [r]) ++ rs = _
                  rw [List.append_assoc]
                  exact hblk
                · rw [List.getElem?_set_ne (fun he => htt he.symm)] at hst'
                  exact hcons t' st' hst'
              · intro t'
                by_cases htt : t' = t
                · subst htt
                  constructor
                  · intro _
                    exact howner
                  · intro _
                    exact ⟨w ++ [r], rs, by rw [List.getElem?_set_self hlt]⟩
                · constructor
                  · rintro ⟨w', r', hw⟩
                    rw [List.getElem?_set_ne (fun he => htt he.symm)] at hw
                    exact (hown t').mp ⟨w', r', hw⟩
                  · intro hsome
                    obtain ⟨w', r', hw⟩ := (hown t').mpr hsome
                    exact ⟨w', r',
                      by rw [List.getElem?_set_ne (fun he => htt he.symm)]; exact hw⟩
              · intro t'
                rw [hmem t']
                by_cases htt : t' = t
                · subst htt
                  constructor
                  · rintro ⟨b, hb, hbne2⟩
                    rw [hst] at hb
                    cases hb
                  · rintro ⟨b, hb, hbne2⟩
                    rw [List.getElem?_set_self hlt] at hb
                    cases hb
                · constructor
                  · rintro ⟨b, hb, hbne2⟩
                    refine ⟨b, ?_, hbne2⟩
                    rw [List.getElem?_set_ne (fun he => htt he.symm)]
                    exact hb
                  · rintro ⟨b, hb, hbne2⟩
                    rw [List.getElem?_set_ne (fun he => htt he.symm)] at hb
                    exact ⟨b, hb, hbne2⟩
              · rw [hfile]
                have hop : ownerPartial s = w.map (fun x => (t, x)) := by
                  simp [ownerPartial, howner, hst, writtenOf]
                rw [hop]
                simp [ownerPartial, howner, List.getElem?_set_self hlt, writtenOf,
                  List.append_assoc]
          | nil =>
              rw [wstep_release s t w hst]
              have howner : s.owner = some t := (hown t).mp ⟨w, [], hst⟩
              have hlt : t < s.threads.length := threads_lt hst
              obtain ⟨hblk, hne⟩ := hcons t _ hst
              have hblk' : w = blocks.getD t [] := by simpa [blockOf] using hblk
              have hwne : w ≠ [] := by rw [hblk']; exact hne rfl
              have htord : t ∉ ord := by
                intro hto
                obtain ⟨b, hb, _⟩ := (hmem t).mp hto
                rw [hst] at hb
                cases hb
              unfold WInv
              dsimp only
              refine ⟨by simpa using hlen, ?_, ?_, ord ++ [t], ?_, ?_, ?_⟩
              · intro t' st' hst'
                by_cases htt : t' = t
                · subst htt
                  rw [List.getElem?_set_self hlt] at hst'
                  cases hst'
                  refine ⟨hblk', fun hf => ?_⟩
                  simp [isFinishedT] at hf
                · rw [List.getElem?_set_ne (fun he => htt he.symm)] at hst'
                  exact hcons t' st' hst'
              · intro t'
                constructor
                · rintro ⟨w', r', hw⟩
                  by_cases htt : t' = t
                  · subst htt
                    rw [List.getElem?_set_self hlt] at hw
                    cases hw
                  · rw [List.getElem?_set_ne (fun he => htt he.symm)] at hw
                    have hc := (hown t').mp ⟨w', r', hw⟩
                    rw [howner] at hc
                    injection hc with hc'
                    exact absurd hc'.symm htt
                · intro hsome
                  cases hsome
              · rw [List.nodup_append]
                refine ⟨hnd, List.nodup_singleton t, ?_⟩
                intro a ha hat
                rw [List.mem_singleton] at hat
                subst hat
                exact htord ha
              · intro t'
                by_cases htt : t' = t
                · subst htt
                  constructor
                  · intro _
                    exact ⟨w, by rw [List.getElem?_set_self hlt], hwne⟩
                  · intro _
                    exact List.mem_append_right _ (List.mem_singleton_self _)
                · rw [List.mem_append, List.mem_singleton]
                  simp only [htt, or_false]
                  rw [hmem t']
                  constructor
                  · rintro ⟨b, hb, hbne2⟩
                    refine ⟨b, ?_, hbne2⟩
                    rw [List.getElem?_set_ne (fun he => htt he.symm)]
                    exact hb
                  · rintro ⟨b, hb, hbne2⟩
                    rw [List.getElem?_set_ne (fun he => htt he.symm)] at hb
                    exact ⟨b, hb, hbne2⟩
              · rw [hfile]
                have hop : ownerPartial s = w.map (fun x => (t, x)) := by
                  simp [ownerPartial, howner, hst, writtenOf]
                have htb : taggedBlock blocks t = w.map (fun x => (t, x)) := by
                  unfold taggedBlock
                  rw [← hblk']
                rw [hop, List.map_append, List.flatten_append]
                simp [ownerPartial, htb]

theorem winv_run {ρ : Type} (blocks : List (List ρ)) (sched : List Nat) :
    WInv blocks (wrun blocks sched) := by
  have hfold : ∀ (sch : List Nat) (s : WriterState ρ),
      WInv blocks s → WInv blocks (sch.foldl wstep s) := by
    intro sch
    induction sch with
    | nil => exact fun s hs => hs
    | cons a rest ih => exact fun s hs => ih _ (winv_step blocks s a hs)
  exact hfold sched _ (winv_init blocks)

theorem taggedBlock_snd {ρ : Type} (blocks : List (List ρ)) (t : Nat) :
    (taggedBlock blocks t).map Prod.snd = blocks.getD t [] := by
  simp [taggedBlock, List.map_map, Function.comp]

/- ------------------------------------------------------------------ -/
/- Theorem: C5                                                         -/
/- ------------------------------------------------------------------ -/

/-- C5: checkpoint writes from completion callbacks are mutually
exclusive.  Under every interleaving of the callbacks in which all of
them complete, the file consists of each writing callback's rows as
one contiguous, intact block (tagged with its writer, in lock
acquisition order) — no two append cycles interleave even though
individual row writes never consult the lock — and the full checkpoint
is the header, neither duplicated nor dropped, followed by those
blocks. -/
theorem c5_checkpoint_write_serialization {ρ : Type} (header : ρ)
    (blocks : List (List ρ)) (sched : List Nat)
    (hdone : allDone (wrun blocks sched) = true) :
    ∃ ord : List Nat, ord.Nodup ∧
      (∀ t, t ∈ ord ↔ t < blocks.length ∧ blocks.getD t [] ≠ []) ∧
      (wrun blocks sched).file = (ord.map (taggedBlock blocks)).flatten ∧
      checkpointFile header (wrun blocks sched) =
        header :: (ord.map (fun t => blocks.getD t [])).flatten := by
  obtain ⟨hlen, hcons, hown, ord, hnd, hmem, hfile⟩ := winv_run blocks sched
  unfold allDone at hdone
  have hall : ∀ (t : Nat) (st : TStat ρ), (wrun blocks sched).threads[t]? = some st →
      isFinishedT st = true := by
    intro t st hst
    exact List.all_eq_true.mp hdone st (List.getElem?_mem hst)
  have hownnone : (wrun blocks sched).owner = none := by
    cases ho : (wrun blocks sched).owner with
    | none => rfl
    | some u =>
        obtain ⟨w, r, hw⟩ := (hown u).mpr ho
        have hf := hall u _ hw
        simp [isFinishedT] at hf
  refine ⟨ord, hnd, ?_, ?_, ?_⟩
  · intro t
    rw [hmem t]
    constructor
    · rintro ⟨b, hb, hbne⟩
      have hlt : t < (wrun blocks sched).threads.length := threads_lt hb
      obtain ⟨hblk, _⟩ := hcons t _ hb
      refine ⟨by rw [← hlen]; exact hlt, ?_⟩
      rw [← hblk]
      exact hbne
    · rintro ⟨hlt, hbne⟩
      have hlt' : t < (wrun blocks sched).threads.length := by
        rw [hlen]
        exact hlt
      obtain ⟨st, hst⟩ : ∃ st, (wrun blocks sched).threads[t]? = some st :=
        ⟨_, List.getElem?_eq_getElem hlt'⟩
      have hf := hall t st hst
      cases st with
      | finished b =>
          obtain ⟨hblk, _⟩ := hcons t _ hst
          refine ⟨b, hst, ?_⟩
          have hb' : (b : List ρ) = blocks.getD t [] := hblk
          rw [hb']
          exact hbne
      | idle block => simp [isFinishedT] at hf
      | working w r => simp [isFinishedT] at hf
  · rw [hfile]
    simp [ownerPartial, hownnone]
  · unfold checkpointFile
    rw [hfile]
    have h0 : ownerPartial (wrun blocks sched) = [] := by
      simp [ownerPartial, hownnone]
    rw [h0, List.append_nil, List.map_flatten, List.map_map]
    congr 1
    simp only [Function.comp_def]
    rw [List.map_congr_left (fun t _ => taggedBlock_snd blocks t)]

/-- Witness for C5: two writers with rows, one with none, under a
contended interleaving (thread 2 repeatedly attempts the lock while
thread 0 holds it); the theorem applies and yields the serialized
file. -/
theorem c5_checkpoint_write_serialization_witness :
    ∃ ord : List Nat, ord.Nodup ∧
      (∀ t, t ∈ ord ↔ t < ([["a", "b"], [], ["c"]] : List (List String)).length ∧
        ([["a", "b"], [], ["c"]] : List (List String)).getD t [] ≠ []) ∧
      (wrun [["a", "b"], [], ["c"]] [0, 2, 0, 2, 0, 0, 2, 2, 2]).file =
        (ord.map (taggedBlock [["a", "b"], [], ["c"]])).flatten ∧
      checkpointFile "header"
          (wrun [["a", "b"], [], ["c"]] [0, 2, 0, 2, 0, 0, 2, 2, 2]) =
        "header" :: (ord.map (fun t =>
          ([["a", "b"], [], ["c"]] : List (List String)).getD t [])).flatten :=
  c5_checkpoint_write_serialization "header" [["a", "b"], [], ["c"]]
    [0, 2, 0, 2, 0, 0, 2, 2, 2] (by decide)

end SFMGen
